import Mathlib

/-!
Verification of the coda-doc-scraper repository's selection and filtering
logic against its natural-language specification.

The embedding covers:
* the JavaScript value model needed by `filterData` (TableCard.js, lines 93-120),
* the attribute filter `filterData` itself,
* the select-all handler `handleSelectAll` (TableListView, lines 26-34),
* the per-table fetch steps `fetchColumns` / `fetchRows` (TableCard.js,
  lines 22-80), modelled as pure state-transition functions over an explicit
  response outcome.
-/

namespace CodaDocScraper

/-- A JavaScript value, as far as `filterData` can observe it:
`null`, `undefined`, strings, numbers, booleans, plain objects
(association lists in property-iteration order) and arrays. -/
inductive Value where
  | vNull : Value
  | vUndefined : Value
  | vStr : String → Value
  | vNum : Int → Value
  | vBool : Bool → Value
  | vObj : List (String × Value) → Value
  | vArr : List Value → Value
deriving Repr

/-- A record (a Column or Row item): a JS object given by its entry list in
property-iteration order, as `Object.entries` would produce it. -/
abbrev Record := List (String × Value)

/-- The JavaScript test `typeof value === 'object'`: true for `null`, plain
objects and arrays. -/
def typeofIsObject : Value → Bool
  | .vNull => true
  | .vObj _ => true
  | .vArr _ => true
  | _ => false

/-- The JavaScript test `value === null` (so that `value !== null` is its
negation). -/
def isNull : Value → Bool
  | .vNull => true
  | _ => false

/-- The test `val !== ''` fails exactly on the empty string (strict
equality); `isEmptyStr` is its negation. -/
def isEmptyStr : Value → Bool
  | .vStr "" => true
  | _ => false

/-- The test `value !== null && value !== '' && value !== undefined` fails
exactly on these three values; `isDropped` is true when the top-level
filter in `filterData` drops the attribute. -/
def isDropped : Value → Bool
  | .vNull => true
  | .vUndefined => true
  | .vStr "" => true
  | _ => false

/-- The JavaScript `Object.entries` on an object or array value. On an array it yields
index-string keys `"0"`, `"1"`, … paired with the elements, in order. -/
def objEntries : Value → List (String × Value)
  | .vObj fs => fs
  | .vArr es => es.enum.map (fun p => (toString p.1, p.2))
  | _ => []

/-- The `.map` step of `filterData` (TableCard.js lines 102-111): if the key
is `"values"` and the value is a non-null object (in the `typeof` sense,
which includes arrays), rebuild it from its entries with empty-string-valued
entries removed; otherwise pass the entry through unchanged. -/
def mapValuesEntry (kv : String × Value) : String × Value :=
  if kv.1 == "values" && typeofIsObject kv.2 && !(isNull kv.2) then
    (kv.1, Value.vObj ((objEntries kv.2).filter (fun p => !(isEmptyStr p.2))))
  else
    kv

/-- The filter applied to a single item (the body of the `.map` over
`data` in TableCard.js lines 94-119): keep entries whose key is in
`selectedAttributes`, apply the nested `values` cleanup, then drop entries
whose value is `null`, `''` or `undefined`. -/
def filterItem (selectedAttributes : List String) (item : Record) : Record :=
  ((item.filter (fun kv => selectedAttributes.contains kv.1)).map
      mapValuesEntry).filter (fun kv => !(isDropped kv.2))

/-- The function `filterData(data, selectedAttributes)` from TableCard.js
lines 93-120. -/
def filterData (data : List Record) (selectedAttributes : List String) :
    List Record :=
  data.map (filterItem selectedAttributes)

/-- A table as listed by the document API and rendered by `TableListView`:
an opaque id, a display name, a row count and an optional last-modified
timestamp. Only `id` is read by the selection logic. -/
structure Table where
  id : String
  name : String
  rowCount : Nat
  updatedAt : Option String
deriving Repr, DecidableEq

/-- The handler `handleSelectAll` from TableListView (src/unnamed/part_000, lines
26-34): if the number of selected ids equals the number of tables, clear
the selection; otherwise select the set of all table ids. The selected
tables are a JS `Set`, modelled as a `Finset String`. -/
def handleSelectAll (selectedTables : Finset String) (tables : List Table) :
    Finset String :=
  if selectedTables.card = tables.length then ∅
  else (tables.map Table.id).toFinset

/-- The handler `handleSelectTable` from TableListView (src/unnamed/part_000, lines
14-24): toggle membership of one table id in the selected set. -/
def handleSelectTable (selectedTables : Finset String) (tableId : String) :
    Finset String :=
  if tableId ∈ selectedTables then selectedTables.erase tableId
  else insert tableId selectedTables

/-- JavaScript `parseInt(s, 10)` restricted to the inputs that arise here
(strings of decimal digits): the number denoted by the leading run of
digits, or `none` (JS `NaN`) when the string starts with no digit. -/
def parseIntDec (s : String) : Option Int :=
  let digits := s.toList.takeWhile Char.isDigit
  if digits.isEmpty then none
  else some (digits.foldl (fun acc c => acc * 10 + (Int.ofNat (c.toNat - 48))) 0)

/-- The row request issued by `fetchRows` (TableCard.js lines 59-67):
`limit` is the axios `params.limit` entry, where `none` means the parameter
is absent from the request (axios omits `undefined` params), as happens for
`rowCount = "All"`. -/
structure RowsRequest where
  docId : String
  tableId : String
  limit : Option Int
  valueFormat : String
deriving Repr, DecidableEq

/-- The outcome of one HTTP request as observed by the `try`/`catch` in
TableCard.js: a successful response carrying `response.data.items`, or a
thrown error. -/
inductive FetchResult where
  | success (items : List Record)
  | failure
deriving Repr

/-- The per-table component state touched by the fetch effects in
TableCard.js: fetched columns and rows (`tableData`), the user-visible
`error` message (`''` when no error is shown) and the loading flag. -/
structure TableState where
  columns : List Record
  rows : List Record
  error : String
  isLoading : Bool
deriving Repr

/-- One run of `fetchRows` (TableCard.js lines 48-77) as a state
transition. It returns the new component state together with the row
request it issued, `none` when no request was made. `setIsLoading(true)`
and `setError('')` happen first; for `rowCount === '0'` the rows are set to
`[]` and the function returns before any request; otherwise the request is
issued with `limit` absent for `"All"` and `parseInt(rowCount, 10)`
otherwise, and `valueFormat` fixed to `simpleWithArrays`. On success the
items are filtered and stored as rows; on failure the error message is set
and `tableData` is left untouched. `finally` clears the loading flag. -/
def fetchRowsStep (docId : String) (tableId : String) (rowCount : String)
    (selectedRowAttributes : List String) (st : TableState)
    (resp : FetchResult) : TableState × Option RowsRequest :=
  if rowCount = "0" then
    ({ st with error := "", rows := [], isLoading := false }, none)
  else
    let req : RowsRequest :=
      { docId := docId, tableId := tableId,
        limit := if rowCount = "All" then none else parseIntDec rowCount,
        valueFormat := "simpleWithArrays" }
    match resp with
    | .success items =>
        ({ st with
            error := ""
            rows := filterData items selectedRowAttributes
            isLoading := false }, some req)
    | .failure =>
        ({ st with
            error := "Failed to fetch rows. Please check your inputs and try again."
            isLoading := false }, some req)

/-- One run of `fetchColumns` (TableCard.js lines 23-41) as a state
transition: on success the filtered items are stored as columns; on failure
the error message is set and `tableData` is left untouched. -/
def fetchColumnsStep (selectedColumnAttributes : List String)
    (st : TableState) (resp : FetchResult) : TableState :=
  match resp with
  | .success items =>
      { st with
          error := ""
          columns := filterData items selectedColumnAttributes
          isLoading := false }
  | .failure =>
      { st with
          error := "Failed to fetch columns. Please check your inputs and try again."
          isLoading := false }

/-- The app keeps one independent `TableCard` state per table id; a fetch
effect for table `tid` rewrites only that table's state. -/
def applyAt (states : String → TableState) (tid : String)
    (step : TableState → TableState) : String → TableState :=
  fun t => if t = tid then step (states t) else states t

/-! ### Helper lemmas about the attribute filter -/

theorem mapValuesEntry_fst (kv : String × Value) :
    (mapValuesEntry kv).1 = kv.1 := by
  unfold mapValuesEntry
  split <;> rfl

theorem mapValuesEntry_idem (kv : String × Value) :
    mapValuesEntry (mapValuesEntry kv) = mapValuesEntry kv := by
  obtain ⟨k, v⟩ := kv
  by_cases h : (k == "values" && typeofIsObject v && !(isNull v)) = true
  · have hk : (k == "values") = true := by
      simp only [Bool.and_eq_true] at h
      exact h.1.1
    simp only [mapValuesEntry, h, if_true, if_pos]
    simp only [hk, typeofIsObject, isNull, Bool.and_true, Bool.not_false,
      Bool.and_self, if_pos, objEntries, List.filter_filter, Bool.and_self]
  · simp [mapValuesEntry, h]

theorem mem_filterItem_iff (A : List String) (R : Record) (k : String)
    (v' : Value) :
    (k, v') ∈ filterItem A R ↔
      (k ∈ A ∧ isDropped v' = false ∧
        ∃ v, (k, v) ∈ R ∧ mapValuesEntry (k, v) = (k, v')) := by
  unfold filterItem
  simp only [List.mem_filter, List.mem_map]
  constructor
  · rintro ⟨⟨⟨k₀, v₀⟩, ⟨hR, hA⟩, hmve⟩, hdrop⟩
    have hk₀ : k₀ = k := by
      have := mapValuesEntry_fst (k₀, v₀)
      rw [hmve] at this
      exact this.symm
    subst hk₀
    refine ⟨?_, ?_, v₀, hR, hmve⟩
    · exact List.elem_iff.mp hA
    · have : isDropped (mapValuesEntry (k₀, v₀)).2 = false := by
        rw [hmve]
        simpa using hdrop
      simpa [hmve] using this
  · rintro ⟨hA, hdrop, v, hR, hmve⟩
    exact ⟨⟨(k, v), ⟨hR, List.elem_iff.mpr hA⟩, hmve⟩, by simp [hmve, hdrop]⟩

theorem filterItem_nil_attrs (R : Record) : filterItem [] R = [] := by
  unfold filterItem
  simp [List.filter_eq_nil_iff]

theorem filterItem_fixed (A : List String) (R : Record) :
    ∀ kv ∈ filterItem A R,
      kv.1 ∈ A ∧ isDropped kv.2 = false ∧ mapValuesEntry kv = kv := by
  rintro ⟨k, v'⟩ hkv
  obtain ⟨hA, hdrop, v, _, hmve⟩ := (mem_filterItem_iff A R k v').mp hkv
  refine ⟨hA, hdrop, ?_⟩
  calc mapValuesEntry (k, v')
      = mapValuesEntry (mapValuesEntry (k, v)) := by rw [hmve]
    _ = mapValuesEntry (k, v) := mapValuesEntry_idem _
    _ = (k, v') := hmve

theorem filterItem_idem (A : List String) (R : Record) :
    filterItem A (filterItem A R) = filterItem A R := by
  have hmem := filterItem_fixed A R
  show (((filterItem A R).filter (fun kv => A.contains kv.1)).map
      mapValuesEntry).filter (fun kv => !(isDropped kv.2)) = filterItem A R
  rw [List.filter_eq_self.mpr
    (fun kv hkv => List.elem_iff.mpr (hmem kv hkv).1)]
  have hmap : (filterItem A R).map mapValuesEntry = filterItem A R := by
    have h :
        (filterItem A R).map mapValuesEntry = (filterItem A R).map id :=
      List.map_eq_map_iff.mpr (fun kv hkv => (hmem kv hkv).2.2)
    simpa using h
  rw [hmap]
  exact List.filter_eq_self.mpr (fun kv hkv => by simp [(hmem kv hkv).2.1])

/-! ### Claim theorems -/

/-- C3: filtering `[R]` with allow-list `A` yields a single record that
contains exactly those attributes of `R` whose names are in `A` and whose
values, after the nested cleanup of a non-null object-typed `values`
attribute (`mapValuesEntry`), are not `null`, not the empty string and not
`undefined`; filtering the empty sequence yields the empty sequence, and an
empty allow-list yields one empty record per input record. -/
theorem filterData_exact_characterization (data : List Record) (R : Record)
    (A : List String) :
    (∃ r, filterData [R] A = [r] ∧ ∀ (k : String) (v' : Value),
      ((k, v') ∈ r ↔ (k ∈ A ∧ isDropped v' = false ∧
        ∃ v, (k, v) ∈ R ∧ mapValuesEntry (k, v) = (k, v'))))
    ∧ filterData [] A = []
    ∧ filterData data [] = data.map (fun _ => ([] : Record)) := by
  refine ⟨⟨filterItem A R, rfl, fun k v' => mem_filterItem_iff A R k v'⟩,
    rfl, ?_⟩
  unfold filterData
  exact List.map_eq_map_iff.mpr (fun r _ => filterItem_nil_attrs r)

/-- C4: re-filtering an already-filtered record sequence with the same
allow-list is a no-op: `filterData (filterData data A) A = filterData data
A` for every input, in particular for a single record `[R]`. -/
theorem filterData_idem (data : List Record) (A : List String) :
    filterData (filterData data A) A = filterData data A := by
  unfold filterData
  rw [List.map_map]
  exact List.map_eq_map_iff.mpr (fun R _ => filterItem_idem A R)

/-- C7: the attribute filter is pure: equal inputs give identical outputs,
each output record is a function of the corresponding input record and the
allow-list alone, and the empty-allow-list / empty-input cases are safe.
The source builds its output with non-mutating operations only
(`Object.entries`, `filter`, `map`, `Object.fromEntries`), which this pure
model reflects; no mutation of the input is possible. -/
theorem filterData_deterministic (dataA dataB : List Record)
    (attrsA attrsB : List String) (hdata : dataA = dataB)
    (hattrs : attrsA = attrsB) :
    filterData dataA attrsA = filterData dataB attrsB
    ∧ filterData dataA attrsA = dataA.map (filterItem attrsA)
    ∧ filterData [] attrsA = []
    ∧ filterData dataA [] = dataA.map (fun _ => ([] : Record)) := by
  subst hdata
  subst hattrs
  refine ⟨rfl, rfl, rfl, ?_⟩
  unfold filterData
  exact List.map_eq_map_iff.mpr (fun r _ => filterItem_nil_attrs r)

/-- Witness for C7 at a concrete record and allow-list. -/
theorem filterData_deterministic_witness :
    filterData [[("id", Value.vStr "r1")]] ["id"]
      = filterData [[("id", Value.vStr "r1")]] ["id"] :=
  (filterData_deterministic [[("id", Value.vStr "r1")]]
    [[("id", Value.vStr "r1")]] ["id"] ["id"] rfl rfl).1

/-- C9: when a record's `values` attribute holds an array and `values` is
in the allow-list, the filter converts the array into a plain mapping keyed
by numeric index strings with empty-string elements removed (the nested
cleanup treats any non-null object, arrays included, as a mapping), and no
output `values` attribute is ever an array. -/
theorem filterData_array_values_to_mapping (R : Record) (A : List String)
    (es : List Value) (hmem : ("values", Value.vArr es) ∈ R)
    (hA : "values" ∈ A) :
    ("values", Value.vObj
        ((es.enum.map (fun p => (toString p.1, p.2))).filter
          (fun p => !(isEmptyStr p.2)))) ∈ filterItem A R
    ∧ ∀ v', ("values", v') ∈ filterItem A R →
        ∀ xs, v' ≠ Value.vArr xs := by
  constructor
  · refine (mem_filterItem_iff A R "values" _).mpr
      ⟨hA, rfl, Value.vArr es, hmem, ?_⟩
    simp [mapValuesEntry, typeofIsObject, isNull, objEntries]
  · rintro v' hv' xs rfl
    obtain ⟨-, -, v, -, hmve⟩ := (mem_filterItem_iff A R "values" _).mp hv'
    unfold mapValuesEntry at hmve
    split at hmve
    · simp at hmve
    · next hcond =>
        simp only [Prod.mk.injEq, true_and] at hmve
        subst hmve
        simp [typeofIsObject, isNull] at hcond

/-- Witness for C9 at a concrete record: an array-valued `values` becomes
an index-keyed object with the empty-string element removed. -/
theorem filterData_array_values_to_mapping_witness :
    ("values", Value.vObj [("0", Value.vStr "a")]) ∈
      filterItem ["values"]
        [("values", Value.vArr [Value.vStr "a", Value.vStr ""])] := by
  have h := (filterData_array_values_to_mapping
    [("values", Value.vArr [Value.vStr "a", Value.vStr ""])] ["values"]
    [Value.vStr "a", Value.vStr ""] (by simp) (by simp)).1
  simpa using h

/-- C10: when a record's `values` attribute is a mapping all of whose
entries have empty-string values and `values` is allow-listed, the filtered
record still contains `values` bound to the empty mapping: the empty object
produced by the nested cleanup is not removed by the top-level
null/empty-string/undefined drop. -/
theorem filterData_empty_values_object_kept (R : Record) (A : List String)
    (fs : List (String × Value)) (hmem : ("values", Value.vObj fs) ∈ R)
    (hA : "values" ∈ A) (hall : ∀ p ∈ fs, isEmptyStr p.2 = true) :
    ("values", Value.vObj []) ∈ filterItem A R := by
  refine (mem_filterItem_iff A R "values" _).mpr
    ⟨hA, rfl, Value.vObj fs, hmem, ?_⟩
  simp only [mapValuesEntry, typeofIsObject, isNull, objEntries,
    Bool.not_false, Bool.and_true, beq_self_eq_true, Bool.and_self, if_true,
    Prod.mk.injEq, true_and, Value.vObj.injEq]
  rw [List.filter_eq_nil_iff]
  intro p hp
  simp [hall p hp]

/-- Witness for C10 at a concrete record whose `values` entries are all
empty strings. -/
theorem filterData_empty_values_object_kept_witness :
    ("values", Value.vObj []) ∈
      filterItem ["values"]
        [("values", Value.vObj [("A", Value.vStr ""),
          ("B", Value.vStr "")])] :=
  filterData_empty_values_object_kept
    [("values", Value.vObj [("A", Value.vStr ""), ("B", Value.vStr "")])]
    ["values"] [("A", Value.vStr ""), ("B", Value.vStr "")]
    (by simp) (by simp) (by decide)

/-- C1 counterexample: select-all clears the selection whenever the
selection's size equals the number of tables, even when the selected ids
differ from the table ids, so "clears if and only if the selection equals
`allIds` exactly" fails: with selection `{"a"}` and one table with id
`"b"`, the operation clears although the selection does not equal the id
list. -/
theorem handleSelectAll_eq_allIds_counterexample :
    handleSelectAll {"a"} [⟨"b", "B", 0, none⟩] = ∅
    ∧ ({"a"} : Finset String)
        ≠ (([⟨"b", "B", 0, none⟩] : List Table).map Table.id).toFinset := by
  constructor
  · decide
  · decide

/-- C1 amended: select-all clears the selection if and only if the
selection's size equals the number of tables, and otherwise sets it to
exactly the set of all table ids; when the selection is a subset of the
(duplicate-free) id list, the size test coincides with the spec's "equals
`allIds` exactly". -/
theorem handleSelectAll_size_toggle (S : Finset String)
    (tables : List Table) :
    (S.card = tables.length → handleSelectAll S tables = ∅)
    ∧ (S.card ≠ tables.length →
        handleSelectAll S tables = (tables.map Table.id).toFinset)
    ∧ ((tables.map Table.id).Nodup → S ⊆ (tables.map Table.id).toFinset →
        (S.card = tables.length ↔ S = (tables.map Table.id).toFinset)) := by
  refine ⟨fun h => by simp [handleSelectAll, h],
    fun h => by simp [handleSelectAll, h], fun hnd hsub => ?_⟩
  have cardT : ((tables.map Table.id).toFinset).card = tables.length := by
    rw [List.toFinset_card_of_nodup hnd, List.length_map]
  constructor
  · intro hcard
    apply Finset.eq_of_subset_of_card_le hsub
    omega
  · rintro rfl
    exact cardT

/-- Witness for C1 at a concrete selection and table list. -/
theorem handleSelectAll_size_toggle_witness :
    handleSelectAll {"a"} [⟨"a", "A", 3, none⟩, ⟨"b", "B", 0, none⟩]
      = (([⟨"a", "A", 3, none⟩, ⟨"b", "B", 0, none⟩] : List Table).map
          Table.id).toFinset
    ∧ (({"a"} : Finset String).card
          = ([⟨"a", "A", 3, none⟩, ⟨"b", "B", 0, none⟩] : List Table).length ↔
        ({"a"} : Finset String)
          = (([⟨"a", "A", 3, none⟩, ⟨"b", "B", 0, none⟩] : List Table).map
              Table.id).toFinset) :=
  ⟨(handleSelectAll_size_toggle {"a"}
      [⟨"a", "A", 3, none⟩, ⟨"b", "B", 0, none⟩]).2.1 (by decide),
   (handleSelectAll_size_toggle {"a"}
      [⟨"a", "A", 3, none⟩, ⟨"b", "B", 0, none⟩]).2.2 (by decide) (by decide)⟩

/-- C2 counterexample: applying select-all twice does not restore an
arbitrary initial selection: starting from `{"a"}` with tables `"a"` and
`"b"`, the first call selects both ids and the second call clears the
selection, which differs from `{"a"}`. -/
theorem selectAll_involution_counterexample :
    handleSelectAll
        (handleSelectAll {"a"} [⟨"a", "A", 3, none⟩, ⟨"b", "B", 0, none⟩])
        [⟨"a", "A", 3, none⟩, ⟨"b", "B", 0, none⟩]
      ≠ ({"a"} : Finset String) := by
  decide

/-- C2 amended: applying select-all twice with the same table list restores
the initial selection when the table ids are duplicate-free and the initial
selection is all-or-nothing, that is, empty or exactly the set of all table
ids. -/
theorem selectAll_involution_allOrNothing (S : Finset String)
    (tables : List Table) (hnd : (tables.map Table.id).Nodup)
    (h : S = ∅ ∨ S = (tables.map Table.id).toFinset) :
    handleSelectAll (handleSelectAll S tables) tables = S := by
  have cardT : ((tables.map Table.id).toFinset).card = tables.length := by
    rw [List.toFinset_card_of_nodup hnd, List.length_map]
  by_cases hn : tables.length = 0
  · have htab : tables = [] := List.length_eq_zero.mp hn
    subst htab
    rcases h with rfl | rfl <;> simp [handleSelectAll]
  · rcases h with rfl | rfl
    · have h1 : handleSelectAll ∅ tables = (tables.map Table.id).toFinset := by
        unfold handleSelectAll
        rw [if_neg]
        simp
        omega
      rw [h1]
      unfold handleSelectAll
      rw [if_pos cardT]
    · have h1 : handleSelectAll ((tables.map Table.id).toFinset) tables
          = ∅ := by
        unfold handleSelectAll
        rw [if_pos cardT]
      rw [h1]
      unfold handleSelectAll
      rw [if_neg]
      simp
      omega

/-- Witness for C2 at a concrete all-selected state: toggling twice
restores the full selection. -/
theorem selectAll_involution_allOrNothing_witness :
    handleSelectAll
        (handleSelectAll
          ((([⟨"a", "A", 3, none⟩] : List Table)).map Table.id).toFinset
          [⟨"a", "A", 3, none⟩])
        [⟨"a", "A", 3, none⟩]
      = ((([⟨"a", "A", 3, none⟩] : List Table)).map Table.id).toFinset :=
  selectAll_involution_allOrNothing _ _ (by decide) (Or.inr rfl)

/-- C5: with row mode `'0'` (Columns Only) the row-fetch step issues no
request and sets the stored rows to the empty sequence, for every prior
state and every would-be response. -/
theorem fetchRows_mode_none (docId tableId : String) (attrs : List String)
    (st : TableState) (resp : FetchResult) :
    (fetchRowsStep docId tableId "0" attrs st resp).2 = none
    ∧ (fetchRowsStep docId tableId "0" attrs st resp).1.rows = [] := by
  constructor <;> simp [fetchRowsStep]

/-- C8: with row mode `'1'` the issued row request carries `limit = 1`, and
with row mode `All` the issued request carries no `limit` parameter; both
fix `valueFormat` to `simpleWithArrays`. -/
theorem fetchRows_limit_params (docId tableId : String)
    (attrs : List String) (st : TableState) (resp : FetchResult) :
    (fetchRowsStep docId tableId "1" attrs st resp).2
      = some { docId := docId, tableId := tableId, limit := some 1,
               valueFormat := "simpleWithArrays" }
    ∧ (fetchRowsStep docId tableId "All" attrs st resp).2
      = some { docId := docId, tableId := tableId, limit := none,
               valueFormat := "simpleWithArrays" } := by
  cases resp <;> constructor <;> simp [fetchRowsStep, parseIntDec]

/-- C6: when a column or row request fails, the per-table step sets a
nonempty user-visible error message and leaves the previously fetched
columns and rows of that table unchanged, and the step for table `tid`
leaves every other table's state untouched. -/
theorem fetch_failure_error_isolated (docId tid rowCount : String)
    (colAttrs rowAttrs : List String) (states : String → TableState) :
    (rowCount ≠ "0" →
      ((fetchRowsStep docId tid rowCount rowAttrs (states tid)
            .failure).1.columns = (states tid).columns
        ∧ (fetchRowsStep docId tid rowCount rowAttrs (states tid)
            .failure).1.rows = (states tid).rows
        ∧ (fetchRowsStep docId tid rowCount rowAttrs (states tid)
            .failure).1.error ≠ ""))
    ∧ (fetchColumnsStep colAttrs (states tid) .failure).columns
        = (states tid).columns
    ∧ (fetchColumnsStep colAttrs (states tid) .failure).rows
        = (states tid).rows
    ∧ (fetchColumnsStep colAttrs (states tid) .failure).error ≠ ""
    ∧ (∀ other, other ≠ tid →
        applyAt states tid
          (fun st => (fetchRowsStep docId tid rowCount rowAttrs st
            .failure).1) other = states other)
    ∧ (∀ other, other ≠ tid →
        applyAt states tid (fun st => fetchColumnsStep colAttrs st .failure)
          other = states other) := by
  refine ⟨fun h => ?_, rfl, rfl, ?_, fun other ho => ?_, fun other ho => ?_⟩
  · unfold fetchRowsStep
    rw [if_neg h]
    refine ⟨rfl, rfl, ?_⟩
    show ("Failed to fetch rows. Please check your inputs and try again."
      : String) ≠ ""
    decide
  · show ("Failed to fetch columns. Please check your inputs and try again."
      : String) ≠ ""
    decide
  · simp [applyAt, ho]
  · simp [applyAt, ho]

/-- Witness for C6: a failing row fetch in mode `All` leaves the stored
rows unchanged, and a failing column fetch for table `t1` leaves table
`t2`'s state untouched. -/
theorem fetch_failure_error_isolated_witness :
    (fetchRowsStep "d" "t1" "All" []
        ((fun _ => (⟨[], [], "", false⟩ : TableState)) "t1")
        .failure).1.rows
      = ((fun _ => (⟨[], [], "", false⟩ : TableState)) "t1").rows
    ∧ applyAt (fun _ => (⟨[], [], "", false⟩ : TableState)) "t1"
        (fun st => fetchColumnsStep [] st .failure) "t2"
      = (fun _ => (⟨[], [], "", false⟩ : TableState)) "t2" :=
  ⟨((fetch_failure_error_isolated "d" "t1" "All" [] []
      (fun _ => ⟨[], [], "", false⟩)).1 (by decide)).2.1,
   (fetch_failure_error_isolated "d" "t1" "All" [] []
      (fun _ => ⟨[], [], "", false⟩)).2.2.2.2.2 "t2" (by decide)⟩

end CodaDocScraper

/-!
### Concrete scenarios from the specification

Closed evaluations of the embedded `filterData` on the scenario inputs the
specification lists, including the array-valued and all-empty `values`
cases.
-/

section Scenarios
open CodaDocScraper

example : filterData [] ["id"] = [] := rfl

example :
    filterData [[("id", Value.vStr "c1"), ("name", Value.vStr "Amount"),
      ("type", Value.vStr "currency")]] ["id", "name"]
      = [[("id", Value.vStr "c1"), ("name", Value.vStr "Amount")]] := rfl

example :
    filterData [[("id", Value.vStr "r1"),
      ("values", Value.vObj [("Amount", Value.vStr ""),
        ("Date", Value.vStr "2024-01-01")])]] ["id", "values"]
      = [[("id", Value.vStr "r1"),
          ("values", Value.vObj [("Date", Value.vStr "2024-01-01")])]] := rfl

example :
    filterData [[("values", Value.vArr [Value.vStr "a", Value.vStr "",
      Value.vStr "b"])]] ["values"]
      = [[("values", Value.vObj [("0", Value.vStr "a"),
          ("2", Value.vStr "b")])]] := rfl

example :
    filterData [[("values", Value.vObj [("A", Value.vStr ""),
      ("B", Value.vStr "")])]] ["values"]
      = [[("values", Value.vObj [])]] := rfl

end Scenarios
